import Mathlib

/-!
Verification of the Nebula interactive particle system.

This file gives a shallow embedding of the algorithmic core of the repository:

* the gesture consensus filter and audio-intensity computation of
  `App.onHandResults` / `App.changeShape` (src/components/UIOverlay.tsx),
* the per-particle frame integrator `animate` and the shape target generator
  `calculateTargetPositions` of the `Nebula3D` component,
* the pointer-mode unprojection that maps normalized device coordinates to a
  world-space interaction point.

Discrete data (finger counts, the gesture window, shapes) is modelled over
`ℕ`; JavaScript numbers in the discrete part are modelled as exact rationals
(`ℚ`), and the continuous particle arithmetic over `ℝ`.
-/

namespace Nebula

/-- The closed shape enumeration `ParticleShape` (src/types.ts). -/
inductive ParticleShape
  | SPHERE
  | HEART
  | FLOWER
  | SATURN
  | FIREWORKS
deriving DecidableEq, Repr

/-- One hand observation `HandData` (src/types.ts): finger count, pinch state,
pinch distance, normalized hand position, detection flag. -/
structure HandData where
  fingersUp : ℕ
  isPinching : Bool
  pinchDistance : ℚ
  handPosition : ℚ × ℚ
  detected : Bool
deriving DecidableEq

/-- Constant `GESTURE_BUFFER_SIZE = 15` (UIOverlay.tsx / App). -/
def GESTURE_BUFFER_SIZE : ℕ := 15

/-- Window push `buffer.push(n); if (buffer.length > GESTURE_BUFFER_SIZE) buffer.shift();`
-- append at the back, drop the front when over capacity (strict FIFO). -/
def pushBuffer (buf : List ℕ) (n : ℕ) : List ℕ :=
  let b := buf ++ [n]
  if GESTURE_BUFFER_SIZE < b.length then b.tail else b

/-- Count table `counts[n] = (counts[n] || 0) + 1` accumulated over the buffer: the number
of occurrences of `v` in the window. -/
def countOf (buf : List ℕ) (v : ℕ) : ℕ := (buf.filter (fun m => m = v)).length

/-- The consensus test `count > GESTURE_BUFFER_SIZE * 0.8` of
`Object.entries(counts).find(([_, count]) => count > GESTURE_BUFFER_SIZE * 0.8)`.
The JavaScript comparison is on numbers; counts are integers, so it is the
exact rational comparison modelled here. -/
def consensusHit (buf : List ℕ) (v : ℕ) : Bool :=
  decide ((GESTURE_BUFFER_SIZE : ℚ) * 0.8 < (countOf buf v : ℚ))

/-- Consensus search `Object.entries(counts).find(...)`: JavaScript object iteration visits
integer-like keys in ascending numeric order, so the find scans candidate
values in ascending order; values absent from the buffer have count 0 and can
never pass the threshold, so scanning `0, 1, ..., max` is the same search. -/
def consensus (buf : List ℕ) : Option ℕ :=
  (List.range ((buf.foldr max 0) + 1)).find? (consensusHit buf)

/-- The gesture-to-shape mapping of `onHandResults`: 2→Flower, 3→Saturn,
4→Heart, 5→Fireworks, anything else keeps the current shape
(`let newShape = currentShape` followed by the if/else chain). -/
def shapeFor (fingers : ℕ) (current : ParticleShape) : ParticleShape :=
  if fingers = 2 then ParticleShape.FLOWER
  else if fingers = 3 then ParticleShape.SATURN
  else if fingers = 4 then ParticleShape.HEART
  else if fingers = 5 then ParticleShape.FIREWORKS
  else current

/-- The gesture state of the App component: the sliding window
(`gestureBufferRef`) and the active shape (`currentShape`). -/
structure AppState where
  buffer : List ℕ
  currentShape : ParticleShape
deriving DecidableEq, Repr

/-- The consensus check and commit decision performed after the push: if the
consensus maps to a new shape, `changeShape` resets the buffer to `[]` and
commits the change; a consensus mapping to the current shape (or no consensus)
leaves the buffer as it is and commits nothing. Returns the resulting window
and the committed shape change, if any. -/
def checkConsensus (buf : List ℕ) (current : ParticleShape) :
    List ℕ × Option ParticleShape :=
  match consensus buf with
  | some f =>
    let newShape := shapeFor f current
    if newShape = current then (buf, none) else ([], some newShape)
  | none => (buf, none)

/-- The audio intensity computed in the `data.detected` branch of
`onHandResults`: `1` when pinching, otherwise
`1 - ((clamp(pinchDistance, 0.05, 0.3) - 0.05) / 0.25)`. -/
def pinchIntensity (d : HandData) : ℚ :=
  if d.isPinching then 1
  else
    let dist := min (max d.pinchDistance 0.05) 0.3
    1 - ((dist - 0.05) / 0.25)

/-- One full `onHandResults` update: when a hand is detected, push the finger
count, run the consensus check (possibly committing a shape change and
resetting the window), and emit the pinch intensity; when no hand is detected,
leave the state untouched and emit intensity `0`. Result: new state, committed
shape change (if any), emitted audio intensity. -/
def onHandResults (s : AppState) (d : HandData) :
    AppState × Option ParticleShape × ℚ :=
  if d.detected then
    let buf := pushBuffer s.buffer d.fingersUp
    let r := checkConsensus buf s.currentShape
    let shape2 := match r.2 with
      | some ns => ns
      | none => s.currentShape
    (⟨r.1, shape2⟩, r.2, pinchIntensity d)
  else (s, none, 0)

/-- A detected hand observation with the given finger count (other fields as
in the idle `HandData` defaults of the App component). -/
def obsOf (n : ℕ) : HandData := ⟨n, false, 1, (0.5, 0.5), true⟩

/-- Feed a list of finger-count observations (all detected) through
`onHandResults`, returning the final state and the number of committed shape
changes. -/
def runObs (s : AppState) : List ℕ → AppState × ℕ
  | [] => (s, 0)
  | n :: rest =>
    let r := onHandResults s (obsOf n)
    let t := runObs r.1 rest
    (t.1, (if r.2.1.isSome then 1 else 0) + t.2)

/-! ### Computational bridge for the consensus threshold

`GESTURE_BUFFER_SIZE * 0.8 = 12` exactly, and counts are natural numbers, so
the rational threshold test is the natural-number test `12 < count`. -/

theorem consensusHit_eq (buf : List ℕ) (v : ℕ) :
    consensusHit buf v = decide (12 < countOf buf v) := by
  refine decide_eq_decide.mpr ?_
  rw [GESTURE_BUFFER_SIZE, show ((15 : ℕ) : ℚ) * 0.8 = ((12 : ℕ) : ℚ) by norm_num,
    Nat.cast_lt]

/-- Natural-number refinement of `consensus`: same search with the threshold
test reduced to `12 < count`. -/
def consensusN (buf : List ℕ) : Option ℕ :=
  (List.range ((buf.foldr max 0) + 1)).find? (fun v => decide (12 < countOf buf v))

theorem consensus_eq (buf : List ℕ) : consensus buf = consensusN buf := by
  unfold consensus consensusN
  congr 1
  funext v
  exact consensusHit_eq buf v

/-- Refinement of `checkConsensus` through `consensusN`. -/
def checkConsensusN (buf : List ℕ) (current : ParticleShape) :
    List ℕ × Option ParticleShape :=
  match consensusN buf with
  | some f =>
    let newShape := shapeFor f current
    if newShape = current then (buf, none) else ([], some newShape)
  | none => (buf, none)

theorem checkConsensus_eq (buf : List ℕ) (current : ParticleShape) :
    checkConsensus buf current = checkConsensusN buf current := by
  unfold checkConsensus checkConsensusN
  rw [consensus_eq]

/-- Refinement of `runObs` that drops the (unused) rational audio intensity,
for executable evaluation of concrete gesture runs. -/
def runObsN (s : AppState) : List ℕ → AppState × ℕ
  | [] => (s, 0)
  | n :: rest =>
    let buf := pushBuffer s.buffer n
    let r := checkConsensusN buf s.currentShape
    let s2 : AppState := ⟨r.1, match r.2 with
      | some ns => ns
      | none => s.currentShape⟩
    let t := runObsN s2 rest
    (t.1, (if r.2.isSome then 1 else 0) + t.2)

theorem runObs_eq (l : List ℕ) : ∀ s : AppState, runObs s l = runObsN s l := by
  induction l with
  | nil => intro s; rfl
  | cons n rest ih =>
    intro s
    show runObs s (n :: rest) = runObsN s (n :: rest)
    rw [runObs, runObsN]
    simp [onHandResults, obsOf, checkConsensus_eq, ih]

/-- A value absent from the window has count 0. -/
theorem countOf_eq_zero_of_not_mem {buf : List ℕ} {v : ℕ} (h : v ∉ buf) :
    countOf buf v = 0 := by
  unfold countOf
  rw [List.length_eq_zero, List.filter_eq_nil_iff]
  intro a ha
  simp only [decide_eq_true_eq]
  intro hav
  exact h (hav ▸ ha)

/-- Claim C1: starting from an empty gesture window with a current shape other
than Saturn, thirteen consecutive observations of finger count 3 commit a
change to Saturn exactly once and reset the window to empty; the two following
observations of finger count 2 commit nothing (neither `[2]` nor `[2, 2]` has
a value over the 0.8 threshold), so the full 15-observation run commits
exactly one change and ends with window `[2, 2]`. -/
theorem thirteen_threes_commit_saturn_once (shape : ParticleShape)
    (h : shape ≠ ParticleShape.SATURN) :
    runObs ⟨[], shape⟩ (List.replicate 13 3) = (⟨[], ParticleShape.SATURN⟩, 1) ∧
    runObs ⟨[], ParticleShape.SATURN⟩ (List.replicate 2 2) =
      (⟨[2, 2], ParticleShape.SATURN⟩, 0) ∧
    consensus [2] = none ∧ consensus [2, 2] = none ∧
    runObs ⟨[], shape⟩ (List.replicate 13 3 ++ List.replicate 2 2) =
      (⟨[2, 2], ParticleShape.SATURN⟩, 1) := by
  rw [runObs_eq, runObs_eq, runObs_eq, consensus_eq, consensus_eq]
  cases shape
  case SATURN => exact absurd rfl h
  all_goals decide

/-- Witness for C1 at the concrete starting shape Sphere. -/
theorem thirteen_threes_commit_saturn_once_witness :
    runObs ⟨[], ParticleShape.SPHERE⟩ (List.replicate 13 3) =
      (⟨[], ParticleShape.SATURN⟩, 1) ∧
    runObs ⟨[], ParticleShape.SATURN⟩ (List.replicate 2 2) =
      (⟨[2, 2], ParticleShape.SATURN⟩, 0) ∧
    consensus [2] = none ∧ consensus [2, 2] = none ∧
    runObs ⟨[], ParticleShape.SPHERE⟩ (List.replicate 13 3 ++ List.replicate 2 2) =
      (⟨[2, 2], ParticleShape.SATURN⟩, 1) :=
  thirteen_threes_commit_saturn_once ParticleShape.SPHERE (by decide)

/-- Claim C2: in a window whose most frequent value occurs exactly 12 times,
there is no consensus and no shape change is committed: the threshold
`count > 0.8 * 15` demands strictly more than 12 matching samples. -/
theorem twelve_of_fifteen_no_consensus (buf : List ℕ) (v0 : ℕ)
    (shape : ParticleShape) (h12 : countOf buf v0 = 12)
    (hmax : ∀ v ∈ buf, countOf buf v ≤ 12) :
    consensus buf = none ∧ checkConsensus buf shape = (buf, none) := by
  have hcons : consensus buf = none := by
    rw [consensus_eq]
    unfold consensusN
    rw [List.find?_eq_none]
    intro v _
    simp only [decide_eq_true_eq, not_lt]
    by_cases hmem : v ∈ buf
    · exact hmax v hmem
    · rw [countOf_eq_zero_of_not_mem hmem]
      omega
  refine ⟨hcons, ?_⟩
  unfold checkConsensus
  rw [hcons]

/-- Witness for C2: a full window of 12 threes and 3 twos. -/
theorem twelve_of_fifteen_no_consensus_witness :
    consensus (List.replicate 12 3 ++ List.replicate 3 2) = none ∧
    checkConsensus (List.replicate 12 3 ++ List.replicate 3 2)
      ParticleShape.SPHERE = (List.replicate 12 3 ++ List.replicate 3 2, none) :=
  twelve_of_fifteen_no_consensus _ 3 _ (by decide) (by decide)

/-- Claim C3: a consensus value is committed through the fixed mapping
2→Flower, 3→Saturn, 4→Heart, 5→Fireworks; a consensus of 0 or 1 maps to no
shape (the current shape is kept) and commits nothing, and a consensus mapping
to the currently active shape also commits nothing and leaves the window
uncleared. -/
theorem consensus_shape_mapping (buf : List ℕ) (shape : ParticleShape) (f : ℕ)
    (h : consensus buf = some f) :
    (shapeFor 2 shape = ParticleShape.FLOWER ∧
     shapeFor 3 shape = ParticleShape.SATURN ∧
     shapeFor 4 shape = ParticleShape.HEART ∧
     shapeFor 5 shape = ParticleShape.FIREWORKS) ∧
    (shapeFor f shape ≠ shape →
      checkConsensus buf shape = ([], some (shapeFor f shape))) ∧
    ((f = 0 ∨ f = 1) →
      shapeFor f shape = shape ∧ checkConsensus buf shape = (buf, none)) ∧
    (shapeFor f shape = shape → checkConsensus buf shape = (buf, none)) := by
  refine ⟨⟨by simp [shapeFor], by simp [shapeFor], by simp [shapeFor],
    by simp [shapeFor]⟩, ?_, ?_, ?_⟩
  · intro hne
    unfold checkConsensus
    rw [h]
    simp [hne]
  · rintro (rfl | rfl) <;>
      exact ⟨by simp [shapeFor], by unfold checkConsensus; rw [h]; simp [shapeFor]⟩
  · intro he
    unfold checkConsensus
    rw [h]
    simp [he]

/-- Witness for C3: a window of 13 twos reaches consensus 2 and commits
Flower from the Sphere shape. -/
theorem consensus_shape_mapping_witness :
    (shapeFor 2 ParticleShape.SPHERE = ParticleShape.FLOWER ∧
     shapeFor 3 ParticleShape.SPHERE = ParticleShape.SATURN ∧
     shapeFor 4 ParticleShape.SPHERE = ParticleShape.HEART ∧
     shapeFor 5 ParticleShape.SPHERE = ParticleShape.FIREWORKS) ∧
    (shapeFor 2 ParticleShape.SPHERE ≠ ParticleShape.SPHERE →
      checkConsensus (List.replicate 13 2) ParticleShape.SPHERE =
        ([], some (shapeFor 2 ParticleShape.SPHERE))) ∧
    ((2 = 0 ∨ 2 = 1) →
      shapeFor 2 ParticleShape.SPHERE = ParticleShape.SPHERE ∧
      checkConsensus (List.replicate 13 2) ParticleShape.SPHERE =
        (List.replicate 13 2, none)) ∧
    (shapeFor 2 ParticleShape.SPHERE = ParticleShape.SPHERE →
      checkConsensus (List.replicate 13 2) ParticleShape.SPHERE =
        (List.replicate 13 2, none)) :=
  consensus_shape_mapping (List.replicate 13 2) ParticleShape.SPHERE 2
    (by rw [consensus_eq]; decide)

/-- Claim C9: the emitted audio intensity always lies in `[0, 1]`: it is `1`
while pinching, otherwise `1 - (clamp(pinchDistance, 0.05, 0.3) - 0.05)/0.25`,
and `0` when no hand is detected. -/
theorem audio_intensity_bounds (s : AppState) (d : HandData)
    (hp : 0 ≤ d.pinchDistance) :
    (0 ≤ pinchIntensity d ∧ pinchIntensity d ≤ 1) ∧
    (d.isPinching = true → pinchIntensity d = 1) ∧
    (d.isPinching = false →
      pinchIntensity d =
        1 - ((min (max d.pinchDistance 0.05) 0.3 - 0.05) / 0.25)) ∧
    (d.detected = false → (onHandResults s d).2.2 = 0) ∧
    (d.detected = true → (onHandResults s d).2.2 = pinchIntensity d) := by
  have hbounds : 0 ≤ pinchIntensity d ∧ pinchIntensity d ≤ 1 := by
    unfold pinchIntensity
    cases hpin : d.isPinching
    · simp only [Bool.false_eq_true, if_false]
      have h1 : (0.05 : ℚ) ≤ min (max d.pinchDistance 0.05) 0.3 :=
        le_min (le_max_right _ _) (by norm_num)
      have h2 : min (max d.pinchDistance 0.05) 0.3 ≤ (0.3 : ℚ) := min_le_right _ _
      have h3 : (min (max d.pinchDistance 0.05) 0.3 - 0.05) / 0.25 =
          4 * min (max d.pinchDistance 0.05) 0.3 - 0.2 := by ring
      rw [h3]
      constructor <;> linarith
    · simp only [if_true]
      norm_num
  refine ⟨hbounds, ?_, ?_, ?_, ?_⟩
  · intro hpin
    unfold pinchIntensity
    rw [hpin]
    simp
  · intro hpin
    unfold pinchIntensity
    rw [hpin]
    simp
  · intro hdet
    unfold onHandResults
    rw [hdet]
    simp
  · intro hdet
    unfold onHandResults
    rw [hdet]
    simp

/-- Witness for C9 with a detected, non-pinching hand at pinch distance 1/10. -/
theorem audio_intensity_bounds_witness :
    (0 ≤ pinchIntensity ⟨0, false, 1/10, (0.5, 0.5), true⟩ ∧
     pinchIntensity ⟨0, false, 1/10, (0.5, 0.5), true⟩ ≤ 1) ∧
    ((false : Bool) = true → pinchIntensity ⟨0, false, 1/10, (0.5, 0.5), true⟩ = 1) ∧
    ((false : Bool) = false →
      pinchIntensity ⟨0, false, 1/10, (0.5, 0.5), true⟩ =
        1 - ((min (max (1/10 : ℚ) 0.05) 0.3 - 0.05) / 0.25)) ∧
    ((true : Bool) = false →
      (onHandResults ⟨[], ParticleShape.SPHERE⟩ ⟨0, false, 1/10, (0.5, 0.5), true⟩).2.2 = 0) ∧
    ((true : Bool) = true →
      (onHandResults ⟨[], ParticleShape.SPHERE⟩ ⟨0, false, 1/10, (0.5, 0.5), true⟩).2.2 =
        pinchIntensity ⟨0, false, 1/10, (0.5, 0.5), true⟩) :=
  audio_intensity_bounds ⟨[], ParticleShape.SPHERE⟩
    ⟨0, false, 1/10, (0.5, 0.5), true⟩ (by norm_num)

/-- Claim C10: an observation with `detected = false` leaves the gesture
window untouched, commits no shape change, and emits audio intensity 0. -/
theorem hand_lost_freezes_state (s : AppState) (d : HandData)
    (h : d.detected = false) :
    onHandResults s d = (s, none, 0) := by
  unfold onHandResults
  rw [h]
  simp

/-- Witness for C10 on a concrete state and a lost-hand sample. -/
theorem hand_lost_freezes_state_witness :
    onHandResults ⟨[3, 3], ParticleShape.HEART⟩ ⟨2, true, 1/2, (0.5, 0.5), false⟩ =
      (⟨[3, 3], ParticleShape.HEART⟩, none, 0) :=
  hand_lost_freezes_state ⟨[3, 3], ParticleShape.HEART⟩
    ⟨2, true, 1/2, (0.5, 0.5), false⟩ rfl

/-! ## The continuous core: `Nebula3D`'s `animate` loop and target generator

JavaScript floating-point arithmetic is modelled over `ℝ`; the calls to
`Math.random()` become explicit inputs in `[0, 1)`. -/

noncomputable section

/-- A 3-component real vector: one particle's position or target, or the
interaction point. -/
structure Vec3 where
  x : ℝ
  y : ℝ
  z : ℝ

/-- Distance `const dist = Math.sqrt(dx*dx + dy*dy + dz*dz)` with
`dx = ix - positions[i3]`, etc.: the distance from the particle's current
position to the interaction point. -/
def interactionDist (ip pos : Vec3) : ℝ :=
  Real.sqrt ((ip.x - pos.x) * (ip.x - pos.x) + (ip.y - pos.y) * (ip.y - pos.y) +
    (ip.z - pos.z) * (ip.z - pos.z))

/-- Drift `tx += Math.sin(time * 2 + i) * 0.5; ty += Math.cos(time * 1.5 + i) * 0.5`:
the deterministic per-particle drift added to the shape target every frame
(the z component gets no drift). -/
def driftedTarget (time : ℝ) (i : ℕ) (tgt : Vec3) : Vec3 :=
  ⟨tgt.x + Real.sin (time * 2 + i) * 0.5,
   tgt.y + Real.cos (time * 1.5 + i) * 0.5,
   tgt.z⟩

/-- The interaction override of the `animate` loop body: when attracting and
within distance 40 the drifted target is replaced by the interaction point
plus a per-axis jitter `(Math.random() - 0.5) * 5`; when repelling and within
distance 25 the target is pushed away from the interaction point by
`dx * force * 2` per axis with `force = (25 - dist) / 25`; otherwise the
drifted target `t0` stands. `rnd` carries the frame's three fresh
`Math.random()` draws. -/
def effectiveTarget (t0 pos : Vec3) (isActive isAttracting : Bool)
    (ip rnd : Vec3) : Vec3 :=
  if isActive then
    let dx := ip.x - pos.x
    let dy := ip.y - pos.y
    let dz := ip.z - pos.z
    let dist := interactionDist ip pos
    if isAttracting then
      if dist < 40 then
        ⟨ip.x + (rnd.x - 0.5) * 5, ip.y + (rnd.y - 0.5) * 5,
         ip.z + (rnd.z - 0.5) * 5⟩
      else t0
    else
      if dist < 25 then
        let force := (25 - dist) / 25
        ⟨t0.x - dx * force * 2, t0.y - dy * force * 2, t0.z - dz * force * 2⟩
      else t0
  else t0

/-- Constant `const lerpFactor = 0.05`. -/
def lerpFactor : ℝ := 0.05

/-- One frame of the per-particle integrator: drift the shape target, apply
the interaction override, then
`positions[i3] += (tx - positions[i3]) * lerpFactor` per axis. -/
def frameStep (time : ℝ) (i : ℕ) (tgt pos : Vec3) (isActive isAttracting : Bool)
    (ip rnd : Vec3) : Vec3 :=
  let t := effectiveTarget (driftedTarget time i tgt) pos isActive isAttracting ip rnd
  ⟨pos.x + (t.x - pos.x) * lerpFactor,
   pos.y + (t.y - pos.y) * lerpFactor,
   pos.z + (t.z - pos.z) * lerpFactor⟩

/-- Iterated frames with interaction active and attracting, a fixed
interaction point, and arbitrary per-frame times, shape targets and random
draws: one particle's position after `n` frames. -/
def attractOrbit (times : ℕ → ℝ) (i : ℕ) (tgts : ℕ → Vec3) (ip : Vec3)
    (rnds : ℕ → Vec3) (p0 : Vec3) : ℕ → Vec3
  | 0 => p0
  | n + 1 =>
    frameStep (times n) i (tgts n) (attractOrbit times i tgts ip rnds p0 n)
      true true ip (rnds n)

/-- Iterated frames with no interaction and a constant shape target, starting
exactly on the target. -/
def restOrbit (times : ℕ → ℝ) (i : ℕ) (tgt : Vec3) : ℕ → Vec3
  | 0 => tgt
  | n + 1 =>
    frameStep (times n) i tgt (restOrbit times i tgt n) false false
      ⟨0, 0, 0⟩ ⟨0, 0, 0⟩

/-- The Sphere case of `calculateTargetPositions`, from the three uniform
draws `u1, u2, u3`: `r = 25 + u1*2`, `theta = u2*2π`, `phi = acos(2*u3 - 1)`,
spherical-to-Cartesian conversion. -/
def spherePoint (u1 u2 u3 : ℝ) : Vec3 :=
  let r := 25 + u1 * 2
  let theta := u2 * Real.pi * 2
  let phi := Real.arccos (2 * u3 - 1)
  ⟨r * Real.sin phi * Real.cos theta,
   r * Real.sin phi * Real.sin theta,
   r * Real.cos phi⟩

/-- The Fireworks case of `calculateTargetPositions`: `r = u1 * 50`, same
angular sampling and conversion as the sphere. -/
def fireworksPoint (u1 u2 u3 : ℝ) : Vec3 :=
  let r := u1 * 50
  let theta := u2 * Real.pi * 2
  let phi := Real.arccos (2 * u3 - 1)
  ⟨r * Real.sin phi * Real.cos theta,
   r * Real.sin phi * Real.sin theta,
   r * Real.cos phi⟩

/-- Shallow embedding of `vec.unproject(camera)` for the scene camera: a
`THREE.PerspectiveCamera` positioned at `(0, 0, camZ)` with identity
orientation. Applying the inverse of the perspective projection matrix
(entries `A = (far+near)/(near-far)`, `B = 2*far*near/(near-far)` in the
third row, `-1` in the fourth) to the NDC point `(nx, ny, nz)` gives the
homogeneous view-space point `(nx*aspect/f, ny/f, -1)` with weight
`w = (nz + A)/B`; the perspective divide and the translation by the camera
position give the world-space point. `f = 1/tan(fov/2)` with `fovDeg` in
degrees. -/
def unprojectPoint (fovDeg aspect near far camZ nx ny nz : ℝ) : Vec3 :=
  let f := 1 / Real.tan (fovDeg * (Real.pi / 180) / 2)
  let A := (far + near) / (near - far)
  let B := 2 * far * near / (near - far)
  let w := (nz + A) / B
  ⟨nx * aspect / f / w, ny / f / w, camZ + (-1) / w⟩

/-- The pointer-mode ray computation of `animate`:
`vec.unproject(camera); dir = vec.sub(camera.position).normalize();
distance = -camera.position.z / dir.z; pos = camera.position + dir*distance`
-- the intersection of the pointer ray with the plane `z = 0`. -/
def mouseRayHit (fovDeg aspect near far camZ nx ny : ℝ) : Vec3 :=
  let v := unprojectPoint fovDeg aspect near far camZ nx ny 0.5
  let sx := v.x
  let sy := v.y
  let sz := v.z - camZ
  let len := Real.sqrt (sx * sx + sy * sy + sz * sz)
  let dx := sx / len
  let dy := sy / len
  let dz := sz / len
  let distance := -camZ / dz
  ⟨0 + dx * distance, 0 + dy * distance, camZ + dz * distance⟩

/-- The interaction point stored in pointer mode: `ix = pos.x; iy = pos.y`
from the ray hit, while `iz` keeps its default value 30. -/
def mouseInteractionPoint (fovDeg aspect near far camZ nx ny : ℝ) : Vec3 :=
  ⟨(mouseRayHit fovDeg aspect near far camZ nx ny).x,
   (mouseRayHit fovDeg aspect near far camZ nx ny).y, 30⟩

end

/-- Spherical-to-Cartesian conversion lands on the sphere of radius `r`. -/
theorem spherical_norm_sq (r a b : ℝ) :
    (r * Real.sin b * Real.cos a) ^ 2 + (r * Real.sin b * Real.sin a) ^ 2 +
      (r * Real.cos b) ^ 2 = r ^ 2 := by
  have ha := Real.sin_sq_add_cos_sq a
  have hb := Real.sin_sq_add_cos_sq b
  linear_combination (r * Real.sin b) ^ 2 * ha + r ^ 2 * hb

/-- Claim C7: every generated Sphere point lies on a sphere of radius
`r = 25 + u1*2 ∈ [25, 27]` around the origin, and every generated Fireworks
point on a sphere of radius `r = u1*50 ∈ [0, 50]`. -/
theorem generated_radius_bounds (u1 u2 u3 : ℝ) (h0 : 0 ≤ u1) (h1 : u1 < 1) :
    ((spherePoint u1 u2 u3).x ^ 2 + (spherePoint u1 u2 u3).y ^ 2 +
        (spherePoint u1 u2 u3).z ^ 2 = (25 + u1 * 2) ^ 2 ∧
      25 ≤ 25 + u1 * 2 ∧ 25 + u1 * 2 ≤ 27) ∧
    ((fireworksPoint u1 u2 u3).x ^ 2 + (fireworksPoint u1 u2 u3).y ^ 2 +
        (fireworksPoint u1 u2 u3).z ^ 2 = (u1 * 50) ^ 2 ∧
      0 ≤ u1 * 50 ∧ u1 * 50 ≤ 50) := by
  refine ⟨⟨?_, by linarith, by linarith⟩, ⟨?_, by linarith, by linarith⟩⟩
  · exact spherical_norm_sq _ _ _
  · exact spherical_norm_sq _ _ _

/-- Witness for C7 at `u1 = u2 = u3 = 1/2`. -/
theorem generated_radius_bounds_witness :
    ((spherePoint (1/2) (1/2) (1/2)).x ^ 2 + (spherePoint (1/2) (1/2) (1/2)).y ^ 2 +
        (spherePoint (1/2) (1/2) (1/2)).z ^ 2 = (25 + (1/2) * 2) ^ 2 ∧
      25 ≤ 25 + (1/2 : ℝ) * 2 ∧ 25 + (1/2 : ℝ) * 2 ≤ 27) ∧
    ((fireworksPoint (1/2) (1/2) (1/2)).x ^ 2 + (fireworksPoint (1/2) (1/2) (1/2)).y ^ 2 +
        (fireworksPoint (1/2) (1/2) (1/2)).z ^ 2 = ((1/2 : ℝ) * 50) ^ 2 ∧
      0 ≤ (1/2 : ℝ) * 50 ∧ (1/2 : ℝ) * 50 ≤ 50) :=
  generated_radius_bounds (1/2) (1/2) (1/2) (by norm_num) (by norm_num)

/-- Claim C8: with the pointer at screen center (`ndx = ndy = 0`) and the
camera on the z-axis at any distance, the unproject-then-intersect
computation resolves the ray hit with the plane `z = 0` to the world origin
for every field of view and aspect ratio, and the stored interaction point is
`(0, 0)` with z fixed at the default interaction depth 30. -/
theorem pointer_center_resolves_to_origin (fovDeg aspect near far camZ : ℝ)
    (hn : 0 < near) (hnf : near < far) :
    mouseRayHit fovDeg aspect near far camZ 0 0 = ⟨0, 0, 0⟩ ∧
    mouseInteractionPoint fovDeg aspect near far camZ 0 0 = ⟨0, 0, 30⟩ := by
  have hB : 2 * far * near / (near - far) < 0 :=
    div_neg_of_pos_of_neg (by have hf : (0:ℝ) < far := lt_trans hn hnf; positivity)
      (by linarith)
  have hA : (0.5 : ℝ) + (far + near) / (near - far) < 0 := by
    have h2 : (far + near) / (near - far) < -(0.5 : ℝ) := by
      rw [div_lt_iff_of_neg (by linarith : near - far < 0)]
      linarith
    linarith
  have hw : 0 < (0.5 + (far + near) / (near - far)) / (2 * far * near / (near - far)) :=
    div_pos_iff.mpr (Or.inr ⟨hA, hB⟩)
  have hray : mouseRayHit fovDeg aspect near far camZ 0 0 = ⟨0, 0, 0⟩ := by
    simp only [mouseRayHit, unprojectPoint]
    set W := (0.5 + (far + near) / (near - far)) / (2 * far * near / (near - far)) with hWdef
    simp only [zero_mul, zero_div, zero_add]
    rw [show camZ + -1 / W - camZ = -(1 / W) from by ring]
    rw [neg_mul_neg,
      Real.sqrt_mul_self (le_of_lt (div_pos one_pos hw)),
      neg_div, div_self (ne_of_gt (div_pos one_pos hw))]
    norm_num [Vec3.mk.injEq]
  refine ⟨hray, ?_⟩
  rw [mouseInteractionPoint, hray]

/-- Witness for C8 with the scene camera parameters: fov 75°, aspect 16:9,
near 0.1, far 1000, camera distance 80. -/
theorem pointer_center_resolves_to_origin_witness :
    mouseRayHit 75 (16/9) (1/10) 1000 80 0 0 = ⟨0, 0, 0⟩ ∧
    mouseInteractionPoint 75 (16/9) (1/10) 1000 80 0 0 = ⟨0, 0, 30⟩ :=
  pointer_center_resolves_to_origin 75 (16/9) (1/10) 1000 80
    (by norm_num) (by norm_num)

/-! ### Helper lemmas about the integrator step -/

/-- The distance to the interaction point is nonnegative. -/
theorem interactionDist_nonneg (ip pos : Vec3) : 0 ≤ interactionDist ip pos := by
  unfold interactionDist
  exact Real.sqrt_nonneg _

/-- Per-axis deviation recurrence of the lerp toward a target `c + j`. -/
theorem lerp_dev (p c j : ℝ) :
    p + (c + j - p) * lerpFactor - c = 0.95 * (p - c) + 0.05 * j := by
  unfold lerpFactor
  ring

/-- One lerp step contracts the per-axis deviation: from deviation at most `M`
and offset at most `B`, the new deviation is at most `0.95·M + 0.05·B`. -/
theorem lerp_dev_bound (p c j M B : ℝ) (hM : |p - c| ≤ M) (hB : |j| ≤ B) :
    |p + (c + j - p) * lerpFactor - c| ≤ 0.95 * M + 0.05 * B := by
  rw [lerp_dev]
  calc |0.95 * (p - c) + 0.05 * j| ≤ |0.95 * (p - c)| + |0.05 * j| := abs_add _ _
    _ = 0.95 * |p - c| + 0.05 * |j| := by
        rw [abs_mul, abs_mul, abs_of_pos (by norm_num : (0:ℝ) < 0.95),
          abs_of_pos (by norm_num : (0:ℝ) < 0.05)]
    _ ≤ 0.95 * M + 0.05 * B := by
        have h1 := mul_le_mul_of_nonneg_left hM (by norm_num : (0:ℝ) ≤ 0.95)
        have h2 := mul_le_mul_of_nonneg_left hB (by norm_num : (0:ℝ) ≤ 0.05)
        linarith

/-- Within attraction range, the frame step moves the position toward the
jittered interaction point, with the shape target discarded. -/
theorem frameStep_attract (time : ℝ) (i : ℕ) (tgt pos ip rnd : Vec3)
    (h : interactionDist ip pos < 40) :
    frameStep time i tgt pos true true ip rnd =
      ⟨pos.x + (ip.x + (rnd.x - 0.5) * 5 - pos.x) * lerpFactor,
       pos.y + (ip.y + (rnd.y - 0.5) * 5 - pos.y) * lerpFactor,
       pos.z + (ip.z + (rnd.z - 0.5) * 5 - pos.z) * lerpFactor⟩ := by
  simp [frameStep, effectiveTarget, h]

/-- With interaction inactive, the frame step lerps toward the drifted shape
target. -/
theorem frameStep_inactive (time : ℝ) (i : ℕ) (tgt pos ip rnd : Vec3) :
    frameStep time i tgt pos false false ip rnd =
      ⟨pos.x + (tgt.x + Real.sin (time * 2 + i) * 0.5 - pos.x) * lerpFactor,
       pos.y + (tgt.y + Real.cos (time * 1.5 + i) * 0.5 - pos.y) * lerpFactor,
       pos.z + (tgt.z - pos.z) * lerpFactor⟩ := by
  simp [frameStep, effectiveTarget, driftedTarget]

/-- Claim C5: with interaction active and not attracting, a particle within
distance `d < 25` of the interaction point gets `force = (25-d)/25 ∈ (0,1]`
and its effective target is offset additively by the point-to-particle vector
scaled by `2·force` per axis; a particle at distance 25 or more is unaffected;
and the force is antitone in the distance (closer particles are pushed
harder). -/
theorem repulsion_additive_force (t0 pos ip rnd : Vec3) :
    (interactionDist ip pos < 25 →
      0 < (25 - interactionDist ip pos) / 25 ∧
      (25 - interactionDist ip pos) / 25 ≤ 1 ∧
      effectiveTarget t0 pos true false ip rnd =
        ⟨t0.x + (pos.x - ip.x) * (2 * ((25 - interactionDist ip pos) / 25)),
         t0.y + (pos.y - ip.y) * (2 * ((25 - interactionDist ip pos) / 25)),
         t0.z + (pos.z - ip.z) * (2 * ((25 - interactionDist ip pos) / 25))⟩) ∧
    (25 ≤ interactionDist ip pos →
      effectiveTarget t0 pos true false ip rnd = t0) ∧
    (∀ d1 d2 : ℝ, d1 ≤ d2 → (25 - d2) / 25 ≤ (25 - d1) / 25) := by
  have hd0 : 0 ≤ interactionDist ip pos := interactionDist_nonneg ip pos
  refine ⟨fun h => ⟨?_, ?_, ?_⟩, fun h => ?_, fun d1 d2 hd => ?_⟩
  · exact div_pos (by linarith) (by norm_num)
  · rw [div_le_one (by norm_num : (0:ℝ) < 25)]
    linarith
  · have he : effectiveTarget t0 pos true false ip rnd =
        ⟨t0.x - (ip.x - pos.x) * ((25 - interactionDist ip pos) / 25) * 2,
         t0.y - (ip.y - pos.y) * ((25 - interactionDist ip pos) / 25) * 2,
         t0.z - (ip.z - pos.z) * ((25 - interactionDist ip pos) / 25) * 2⟩ := by
      simp [effectiveTarget, h]
    rw [he]
    simp only [Vec3.mk.injEq]
    refine ⟨by ring, by ring, by ring⟩
  · simp [effectiveTarget, not_lt.mpr h]
  · have e : ∀ d : ℝ, (25 - d) / 25 = 1 - 0.04 * d := by
      intro d
      ring
    rw [e, e]
    linarith

/-- Witness for C5: interaction point at the origin, particle at `(3,4,0)`
(distance 5), drifted target `(1,2,3)`. -/
theorem repulsion_additive_force_witness :
    0 < (25 - interactionDist ⟨0, 0, 0⟩ ⟨3, 4, 0⟩) / 25 ∧
    (25 - interactionDist ⟨0, 0, 0⟩ ⟨3, 4, 0⟩) / 25 ≤ 1 ∧
    effectiveTarget ⟨1, 2, 3⟩ ⟨3, 4, 0⟩ true false ⟨0, 0, 0⟩ ⟨0, 0, 0⟩ =
      ⟨1 + ((3:ℝ) - 0) * (2 * ((25 - interactionDist ⟨0, 0, 0⟩ ⟨3, 4, 0⟩) / 25)),
       2 + ((4:ℝ) - 0) * (2 * ((25 - interactionDist ⟨0, 0, 0⟩ ⟨3, 4, 0⟩) / 25)),
       3 + ((0:ℝ) - 0) * (2 * ((25 - interactionDist ⟨0, 0, 0⟩ ⟨3, 4, 0⟩) / 25))⟩ :=
  (repulsion_additive_force ⟨1, 2, 3⟩ ⟨3, 4, 0⟩ ⟨0, 0, 0⟩ ⟨0, 0, 0⟩).1 (by
    unfold interactionDist
    have h25 : ((0:ℝ) - 3) * ((0:ℝ) - 3) + ((0:ℝ) - 4) * ((0:ℝ) - 4) +
        ((0:ℝ) - 0) * ((0:ℝ) - 0) = 25 := by norm_num
    rw [h25, show (25:ℝ) = 5 ^ 2 by norm_num, Real.sqrt_sq (by norm_num : (0:ℝ) ≤ 5)]
    norm_num)

/-- Claim C6: with interaction inactive and the position starting exactly on
the (constant) target, one frame moves the position only by the drift term
scaled by `lerpFactor = 0.05`; the drift term itself is bounded by 0.5 per
axis; and over any number of frames the per-axis deviation from the target
never exceeds 0.5. -/
theorem no_interaction_drift_bounded (times : ℕ → ℝ) (i : ℕ) (tgt : Vec3) :
    restOrbit times i tgt 0 = tgt ∧
    restOrbit times i tgt 1 =
      ⟨tgt.x + Real.sin (times 0 * 2 + i) * 0.5 * lerpFactor,
       tgt.y + Real.cos (times 0 * 1.5 + i) * 0.5 * lerpFactor,
       tgt.z⟩ ∧
    (∀ t : ℝ, |Real.sin (t * 2 + i) * 0.5| ≤ 0.5 ∧
      |Real.cos (t * 1.5 + i) * 0.5| ≤ 0.5) ∧
    (∀ n, |(restOrbit times i tgt n).x - tgt.x| ≤ 0.5 ∧
      |(restOrbit times i tgt n).y - tgt.y| ≤ 0.5 ∧
      |(restOrbit times i tgt n).z - tgt.z| ≤ 0.5) := by
  have hsin : ∀ t : ℝ, |Real.sin (t * 2 + i) * 0.5| ≤ 0.5 := by
    intro t
    rw [abs_mul, abs_of_pos (by norm_num : (0:ℝ) < 0.5)]
    have := Real.abs_sin_le_one (t * 2 + i)
    nlinarith
  have hcos : ∀ t : ℝ, |Real.cos (t * 1.5 + i) * 0.5| ≤ 0.5 := by
    intro t
    rw [abs_mul, abs_of_pos (by norm_num : (0:ℝ) < 0.5)]
    have := Real.abs_cos_le_one (t * 1.5 + i)
    nlinarith
  have hbound : ∀ n, |(restOrbit times i tgt n).x - tgt.x| ≤ 0.5 ∧
      |(restOrbit times i tgt n).y - tgt.y| ≤ 0.5 ∧
      |(restOrbit times i tgt n).z - tgt.z| ≤ 0.5 := by
    intro n
    induction n with
    | zero =>
      norm_num [restOrbit]
    | succ n ih =>
      obtain ⟨ihx, ihy, ihz⟩ := ih
      have hstep : restOrbit times i tgt (n + 1) =
          frameStep (times n) i tgt (restOrbit times i tgt n) false false
            ⟨0, 0, 0⟩ ⟨0, 0, 0⟩ := rfl
      rw [hstep, frameStep_inactive]
      refine ⟨?_, ?_, ?_⟩
      · have hb := lerp_dev_bound (restOrbit times i tgt n).x tgt.x
          (Real.sin (times n * 2 + i) * 0.5) 0.5 0.5 ihx (hsin (times n))
        have he : (0.95:ℝ) * 0.5 + 0.05 * 0.5 = 0.5 := by norm_num
        linarith
      · have hb := lerp_dev_bound (restOrbit times i tgt n).y tgt.y
          (Real.cos (times n * 1.5 + i) * 0.5) 0.5 0.5 ihy (hcos (times n))
        have he : (0.95:ℝ) * 0.5 + 0.05 * 0.5 = 0.5 := by norm_num
        linarith
      · have e : (restOrbit times i tgt n).z +
            (tgt.z - (restOrbit times i tgt n).z) * lerpFactor - tgt.z =
            0.95 * ((restOrbit times i tgt n).z - tgt.z) := by
          unfold lerpFactor
          ring
        show |(restOrbit times i tgt n).z +
          (tgt.z - (restOrbit times i tgt n).z) * lerpFactor - tgt.z| ≤ 0.5
        rw [e, abs_mul, abs_of_pos (by norm_num : (0:ℝ) < 0.95)]
        nlinarith [abs_nonneg ((restOrbit times i tgt n).z - tgt.z)]
  refine ⟨rfl, ?_, fun t => ⟨hsin t, hcos t⟩, hbound⟩
  have h1 : restOrbit times i tgt 1 =
      frameStep (times 0) i tgt tgt false false ⟨0, 0, 0⟩ ⟨0, 0, 0⟩ := rfl
  rw [h1, frameStep_inactive]
  simp only [Vec3.mk.injEq]
  refine ⟨by ring, by ring, by ring⟩

/-- A distance below 40 bounds every per-axis deviation by 40. -/
theorem axis_le_of_dist_lt (ip pos : Vec3) (h : interactionDist ip pos < 40) :
    |pos.x - ip.x| ≤ 40 ∧ |pos.y - ip.y| ≤ 40 ∧ |pos.z - ip.z| ≤ 40 := by
  unfold interactionDist at h
  rw [Real.sqrt_lt' (by norm_num : (0:ℝ) < 40)] at h
  norm_num at h
  refine ⟨?_, ?_, ?_⟩ <;> rw [abs_le] <;> constructor <;>
    nlinarith [mul_self_nonneg (ip.x - pos.x), mul_self_nonneg (ip.y - pos.y),
      mul_self_nonneg (ip.z - pos.z), sq_nonneg (ip.x - pos.x + 40),
      sq_nonneg (ip.x - pos.x - 40), sq_nonneg (ip.y - pos.y + 40),
      sq_nonneg (ip.y - pos.y - 40), sq_nonneg (ip.z - pos.z + 40),
      sq_nonneg (ip.z - pos.z - 40)]

/-- One attracting in-range frame keeps the particle strictly within range 40
of the interaction point. -/
theorem attract_step_in_range (time : ℝ) (i : ℕ) (tgt pos ip rnd : Vec3)
    (hr : 0 ≤ rnd.x ∧ rnd.x < 1 ∧ 0 ≤ rnd.y ∧ rnd.y < 1 ∧ 0 ≤ rnd.z ∧ rnd.z < 1)
    (h : interactionDist ip pos < 40) :
    interactionDist ip (frameStep time i tgt pos true true ip rnd) < 40 := by
  obtain ⟨hx0, hx1, hy0, hy1, hz0, hz1⟩ := hr
  rw [frameStep_attract time i tgt pos ip rnd h]
  unfold interactionDist at h ⊢
  rw [Real.sqrt_lt' (by norm_num : (0:ℝ) < 40)] at h ⊢
  unfold lerpFactor
  dsimp only
  have hAx : ip.x - (pos.x + (ip.x + (rnd.x - 0.5) * 5 - pos.x) * 0.05) =
      0.95 * (ip.x - pos.x) - 0.05 * (5 * rnd.x - 2.5) := by ring
  have hAy : ip.y - (pos.y + (ip.y + (rnd.y - 0.5) * 5 - pos.y) * 0.05) =
      0.95 * (ip.y - pos.y) - 0.05 * (5 * rnd.y - 2.5) := by ring
  have hAz : ip.z - (pos.z + (ip.z + (rnd.z - 0.5) * 5 - pos.z) * 0.05) =
      0.95 * (ip.z - pos.z) - 0.05 * (5 * rnd.z - 2.5) := by ring
  rw [hAx, hAy, hAz]
  have bound : ∀ u j : ℝ, (0.95 * u - 0.05 * j) * (0.95 * u - 0.05 * j) ≤
      0.95 * (u * u) + 0.05 * (j * j) := by
    intro u j
    nlinarith [sq_nonneg (u + j)]
  have jsq : ∀ r : ℝ, 0 ≤ r → r < 1 → (5 * r - 2.5) * (5 * r - 2.5) ≤ 6.25 := by
    intro r h0 h1
    nlinarith
  have b1 := bound (ip.x - pos.x) (5 * rnd.x - 2.5)
  have b2 := bound (ip.y - pos.y) (5 * rnd.y - 2.5)
  have b3 := bound (ip.z - pos.z) (5 * rnd.z - 2.5)
  have j1 := jsq rnd.x hx0 hx1
  have j2 := jsq rnd.y hy0 hy1
  have j3 := jsq rnd.z hz0 hz1
  norm_num at h ⊢
  linarith

/-- Claim C4: with interaction active and attracting, a particle within
distance 40 of the interaction point has its effective target replaced
entirely by the interaction point plus an independent per-axis jitter
`(Math.random() - 0.5) * 5 ∈ (-2.5, 2.5)` (the shape target is discarded);
particles at distance 40 or more are unaffected by this step; and over
repeated frames with a fixed interaction point every affected particle stays
within range and its per-axis deviation from the interaction point converges
to within the jitter bound 2.5, regardless of the per-frame shape targets. -/
theorem attraction_override_and_convergence
    (time : ℝ) (i : ℕ) (tgt tgt2 pos ip rnd : Vec3)
    (times : ℕ → ℝ) (tgts : ℕ → Vec3) (rnds : ℕ → Vec3) (p0 : Vec3)
    (hrnd : ∀ n, 0 ≤ (rnds n).x ∧ (rnds n).x < 1 ∧ 0 ≤ (rnds n).y ∧
      (rnds n).y < 1 ∧ 0 ≤ (rnds n).z ∧ (rnds n).z < 1)
    (hp0 : interactionDist ip p0 < 40) :
    (interactionDist ip pos < 40 →
      frameStep time i tgt pos true true ip rnd =
        ⟨pos.x + (ip.x + (rnd.x - 0.5) * 5 - pos.x) * lerpFactor,
         pos.y + (ip.y + (rnd.y - 0.5) * 5 - pos.y) * lerpFactor,
         pos.z + (ip.z + (rnd.z - 0.5) * 5 - pos.z) * lerpFactor⟩ ∧
      frameStep time i tgt pos true true ip rnd =
        frameStep time i tgt2 pos true true ip rnd) ∧
    (40 ≤ interactionDist ip pos →
      frameStep time i tgt pos true true ip rnd =
        frameStep time i tgt pos false false ip rnd) ∧
    (∀ n, interactionDist ip (attractOrbit times i tgts ip rnds p0 n) < 40) ∧
    (∀ n,
      |(attractOrbit times i tgts ip rnds p0 n).x - ip.x| ≤ 2.5 + 0.95 ^ n * 40 ∧
      |(attractOrbit times i tgts ip rnds p0 n).y - ip.y| ≤ 2.5 + 0.95 ^ n * 40 ∧
      |(attractOrbit times i tgts ip rnds p0 n).z - ip.z| ≤ 2.5 + 0.95 ^ n * 40) ∧
    (∀ ε : ℝ, 0 < ε → ∃ N : ℕ, ∀ n, N ≤ n →
      |(attractOrbit times i tgts ip rnds p0 n).x - ip.x| ≤ 2.5 + ε ∧
      |(attractOrbit times i tgts ip rnds p0 n).y - ip.y| ≤ 2.5 + ε ∧
      |(attractOrbit times i tgts ip rnds p0 n).z - ip.z| ≤ 2.5 + ε) := by
  have hinv : ∀ n, interactionDist ip (attractOrbit times i tgts ip rnds p0 n) < 40 := by
    intro n
    induction n with
    | zero => exact hp0
    | succ n ih =>
      exact attract_step_in_range (times n) i (tgts n) _ ip (rnds n) (hrnd n) ih
  have hjit : ∀ n, |((rnds n).x - 0.5) * 5| ≤ 2.5 ∧ |((rnds n).y - 0.5) * 5| ≤ 2.5 ∧
      |((rnds n).z - 0.5) * 5| ≤ 2.5 := by
    intro n
    obtain ⟨hx0, hx1, hy0, hy1, hz0, hz1⟩ := hrnd n
    refine ⟨?_, ?_, ?_⟩ <;> rw [abs_le] <;> constructor <;> linarith
  have hbound : ∀ n,
      |(attractOrbit times i tgts ip rnds p0 n).x - ip.x| ≤ 2.5 + 0.95 ^ n * 40 ∧
      |(attractOrbit times i tgts ip rnds p0 n).y - ip.y| ≤ 2.5 + 0.95 ^ n * 40 ∧
      |(attractOrbit times i tgts ip rnds p0 n).z - ip.z| ≤ 2.5 + 0.95 ^ n * 40 := by
    intro n
    induction n with
    | zero =>
      obtain ⟨ax, ay, az⟩ := axis_le_of_dist_lt ip p0 hp0
      have h0 : attractOrbit times i tgts ip rnds p0 0 = p0 := rfl
      rw [h0]
      norm_num
      exact ⟨by linarith, by linarith, by linarith⟩
    | succ n ih =>
      obtain ⟨ihx, ihy, ihz⟩ := ih
      obtain ⟨jx, jy, jz⟩ := hjit n
      have hstep : attractOrbit times i tgts ip rnds p0 (n + 1) =
          frameStep (times n) i (tgts n) (attractOrbit times i tgts ip rnds p0 n)
            true true ip (rnds n) := rfl
      rw [hstep, frameStep_attract _ _ _ _ _ _ (hinv n)]
      have hpow : (0.95:ℝ) * (2.5 + 0.95 ^ n * 40) + 0.05 * 2.5 =
          2.5 + 0.95 ^ (n + 1) * 40 := by
        rw [pow_succ]
        ring
      dsimp only
      refine ⟨?_, ?_, ?_⟩
      · have hb := lerp_dev_bound (attractOrbit times i tgts ip rnds p0 n).x ip.x
          (((rnds n).x - 0.5) * 5) (2.5 + 0.95 ^ n * 40) 2.5 ihx jx
        linarith
      · have hb := lerp_dev_bound (attractOrbit times i tgts ip rnds p0 n).y ip.y
          (((rnds n).y - 0.5) * 5) (2.5 + 0.95 ^ n * 40) 2.5 ihy jy
        linarith
      · have hb := lerp_dev_bound (attractOrbit times i tgts ip rnds p0 n).z ip.z
          (((rnds n).z - 0.5) * 5) (2.5 + 0.95 ^ n * 40) 2.5 ihz jz
        linarith
  refine ⟨fun h => ⟨frameStep_attract time i tgt pos ip rnd h, ?_⟩, fun h => ?_,
    hinv, hbound, ?_⟩
  · rw [frameStep_attract time i tgt pos ip rnd h,
      frameStep_attract time i tgt2 pos ip rnd h]
  · have h' : ¬ interactionDist ip pos < 40 := not_lt.mpr h
    simp [frameStep, effectiveTarget, h', driftedTarget]
  · intro ε hε
    obtain ⟨N, hN⟩ := exists_pow_lt_of_lt_one
      (div_pos hε (by norm_num : (0:ℝ) < 40)) (by norm_num : (0.95:ℝ) < 1)
    refine ⟨N, fun n hn => ?_⟩
    have hpow : (0.95:ℝ) ^ n ≤ 0.95 ^ N :=
      pow_le_pow_of_le_one (by norm_num) (by norm_num) hn
    have hN40 : (0.95:ℝ) ^ N * 40 < ε := (lt_div_iff₀ (by norm_num : (0:ℝ) < 40)).mp hN
    have h40 : (0.95:ℝ) ^ n * 40 ≤ ε := by
      have := mul_le_mul_of_nonneg_right hpow (by norm_num : (0:ℝ) ≤ 40)
      linarith
    obtain ⟨cx, cy, cz⟩ := hbound n
    exact ⟨by linarith, by linarith, by linarith⟩

/-- Witness for C4: interaction point and particle at the origin, constant
random draws 1/2, after three frames the particle is still in range and
within the explicit deviation bound. -/
theorem attraction_override_and_convergence_witness :
    interactionDist ⟨0, 0, 0⟩
      (attractOrbit (fun _ => 0) 0 (fun _ => ⟨0, 0, 0⟩) ⟨0, 0, 0⟩
        (fun _ => ⟨1/2, 1/2, 1/2⟩) ⟨0, 0, 0⟩ 3) < 40 ∧
    |(attractOrbit (fun _ => 0) 0 (fun _ => ⟨0, 0, 0⟩) ⟨0, 0, 0⟩
        (fun _ => ⟨1/2, 1/2, 1/2⟩) ⟨0, 0, 0⟩ 3).x - (⟨0, 0, 0⟩ : Vec3).x| ≤
      2.5 + 0.95 ^ 3 * 40 :=
  have T := attraction_override_and_convergence 0 0 ⟨0, 0, 0⟩ ⟨1, 1, 1⟩ ⟨0, 0, 0⟩
    ⟨0, 0, 0⟩ ⟨1/2, 1/2, 1/2⟩ (fun _ => 0) (fun _ => ⟨0, 0, 0⟩)
    (fun _ => ⟨1/2, 1/2, 1/2⟩) ⟨0, 0, 0⟩ (fun _ => by norm_num)
    (by unfold interactionDist; norm_num [Real.sqrt_zero])
  ⟨T.2.2.1 3, (T.2.2.2.1 3).1⟩

/-- Witness for C6 at a constant time 0, particle index 0 and target at the
origin: the deviation bound after five frames. -/
theorem no_interaction_drift_bounded_witness :
    |(restOrbit (fun _ => 0) 0 ⟨0, 0, 0⟩ 5).x - (⟨0, 0, 0⟩ : Vec3).x| ≤ 0.5 ∧
    |(restOrbit (fun _ => 0) 0 ⟨0, 0, 0⟩ 5).y - (⟨0, 0, 0⟩ : Vec3).y| ≤ 0.5 ∧
    |(restOrbit (fun _ => 0) 0 ⟨0, 0, 0⟩ 5).z - (⟨0, 0, 0⟩ : Vec3).z| ≤ 0.5 :=
  (no_interaction_drift_bounded (fun _ => 0) 0 ⟨0, 0, 0⟩).2.2.2 5

end Nebula
